import Mathlib

/-!
Verification of the keplog-nodejs error-tracking SDK core.

Shallow embedding of the SDK source:
  * `src/scope.ts`        — `Scope`, reserved-key validation, `merge`
  * `src/serializer.ts`   — `ErrorSerializer.serialize` / `serializeMessage`
  * `src/transport.ts`    — `Transport.validateEvent` / `Transport.send`
  * `src/breadcrumbs.ts`  — `BreadcrumbManager`
  * `src/client.ts`       — `KeplogClient` constructor defaults and the
                            recursion-guarded `captureError` pipeline

JavaScript runtime facts that the code relies on (truthiness, object spread,
`JSON.stringify`, `new Error().stack`, `Date.now()`) are modelled explicitly;
external collaborators (the HTTP fetch, the wall clock, the V8 fresh-error
stack, the stack-frame enricher output) enter as parameters.
-/

namespace Keplog

/-- Model of a JavaScript value as it occurs in the SDK context objects. -/
inductive Val where
  | vnull
  | vundef
  | vbool (b : Bool)
  | vnum (n : Int)
  | vstr (s : String)
  | varr (xs : List Val)
  | vobj (fields : List (String × Val))

/-- A JavaScript object, as an insertion-ordered association list with
distinct keys (the JS engine guarantees key uniqueness). -/
abbrev Obj := List (String × Val)

/-- JavaScript truthiness of a value. -/
def Val.truthy : Val → Bool
  | .vnull => false
  | .vundef => false
  | .vbool b => b
  | .vnum n => n != 0
  | .vstr s => s != ""
  | .varr _ => true
  | .vobj _ => true

/-- Property read `o[k]` on an object: the first binding of key `k`. -/
def lookupKey (o : Obj) (k : String) : Option Val :=
  (o.find? (fun kv => kv.1 == k)).map (fun kv => kv.2)

/-- The keys of an object, in order. -/
def keysOf (o : Obj) : List String :=
  o.map (fun kv => kv.1)

/-- Object spread-merge `\x7b...a, ...b\x7d`: keys of `a` in order, each
overridden by `b` where `b` has the key, followed by the keys only in `b`. -/
def objAssign (a b : Obj) : Obj :=
  a.map (fun kv => (kv.1, (lookupKey b kv.1).getD kv.2))
    ++ b.filter (fun kv => (lookupKey a kv.1).isNone)

/-- Property write `o[k] = v`: overwrite in place if present, else append. -/
def setKey (o : Obj) (k : String) (v : Val) : Obj :=
  objAssign o [(k, v)]

/-- The own enumerable fields produced by spreading a value inside an object
literal: objects spread their fields, strings and arrays spread index-keyed
entries, primitives spread nothing. -/
def spreadFields : Val → Obj
  | .vobj fs => fs
  | .vstr s =>
      (List.range s.length).zipWith
        (fun i c => (toString i, Val.vstr (String.singleton c))) s.toList
  | .varr xs =>
      (List.range xs.length).zipWith (fun i v => (toString i, v)) xs
  | _ => []

/-- String conversion `String(v)` of the JS runtime (arrays join their
elements with commas, plain objects print as `[object Object]`). -/
def jsToString : Val → String
  | .vnull => "null"
  | .vundef => "undefined"
  | .vbool b => if b then "true" else "false"
  | .vnum n => toString n
  | .vstr s => s
  | .varr xs => String.intercalate "," (xs.attach.map (fun x => jsToString x.1))
  | .vobj _ => "[object Object]"
termination_by v => sizeOf v
decreasing_by
  simp_wf
  have h := List.sizeOf_lt_of_mem x.2
  omega

/-- JSON string escaping for the common escapes (quote, backslash, newline,
carriage return, tab); other characters pass through unchanged. -/
def jsonQuote (s : String) : String :=
  "\"" ++
    s.foldl
      (fun acc c =>
        acc ++
          (if c = '"' then "\\\""
           else if c = '\\' then "\\\\"
           else if c = '\n' then "\\n"
           else if c = '\r' then "\\r"
           else if c = '\t' then "\\t"
           else String.singleton c))
      "" ++ "\""

mutual

/-- Model of the `JSON.stringify` builtin on `Val` (`none` models the
`undefined` result on an `undefined` input; object fields with `undefined`
values are skipped, `undefined` array elements render as `null`). -/
def jsonStringify : Val → Option String
  | .vnull => some "null"
  | .vundef => none
  | .vbool b => some (if b then "true" else "false")
  | .vnum n => some (toString n)
  | .vstr s => some (jsonQuote s)
  | .varr xs => some ("[" ++ String.intercalate "," (jsonArrItems xs) ++ "]")
  | .vobj fs => some ("\x7b" ++ String.intercalate "," (jsonObjFields fs) ++ "\x7d")

/-- Rendered elements of a JSON array. -/
def jsonArrItems : List Val → List String
  | [] => []
  | x :: xs => ((jsonStringify x).getD "null") :: jsonArrItems xs

/-- Rendered fields of a JSON object, skipping `undefined` values. -/
def jsonObjFields : List (String × Val) → List String
  | [] => []
  | kv :: rest =>
      match jsonStringify kv.2 with
      | some s => (jsonQuote kv.1 ++ ":" ++ s) :: jsonObjFields rest
      | none => jsonObjFields rest

end

/-! ## Scope (src/scope.ts) -/

/-- Reserved context keys that cannot be set manually via `setContext`
(`Scope.RESERVED_KEYS`, scope.ts lines 12-18). -/
def RESERVED_KEYS : List String :=
  ["exception_class", "frames", "queries", "request", "breadcrumbs"]

/-- Reserved keys that may nevertheless be passed as per-call local context
(`Scope.ALLOWED_IN_CAPTURE`, scope.ts line 23). -/
def ALLOWED_IN_CAPTURE : List String :=
  ["user", "request", "queries"]

/-- Global mutable scope state: context, tags and user (scope.ts lines 25-27). -/
structure Scope where
  context : Obj
  tags : List (String × String)
  user : Option Obj

/-- A freshly constructed scope: empty context, empty tags, no user. -/
def Scope.empty : Scope :=
  { context := [], tags := [], user := none }

/-- `Scope.setContext` (scope.ts lines 35-42): throws on a reserved key,
otherwise upserts. -/
def Scope.setContext (s : Scope) (key : String) (value : Val) :
    Except String Scope :=
  if RESERVED_KEYS.contains key then
    .error ("Cannot set reserved context key " ++ key)
  else
    .ok { s with context := setKey s.context key value }

/-- `Scope.setTag` (scope.ts lines 57-59). -/
def Scope.setTag (s : Scope) (key value : String) : Scope :=
  { s with tags := (s.tags.map
      (fun kv => if kv.1 == key then (kv.1, value) else kv))
      ++ (if (s.tags.find? (fun kv => kv.1 == key)).isNone
          then [(key, value)] else []) }

/-- `Scope.setUser` (scope.ts lines 81-83): full replace. -/
def Scope.setUser (s : Scope) (user : Obj) : Scope :=
  { s with user := some user }

/-- `Scope.clear` (scope.ts lines 96-100). -/
def Scope.clear (_ : Scope) : Scope :=
  Scope.empty

/-- The per-key validation predicate of `Scope.merge` (scope.ts lines
113-122): a local-context key fails if it is reserved and not
capture-allowed. -/
def disallowedKey (k : String) : Bool :=
  RESERVED_KEYS.contains k && !(ALLOWED_IN_CAPTURE.contains k)

/-- `Scope.merge` (scope.ts lines 110-147): validate the local context
against the reserved keys, overlay it onto the global context (local wins),
then conditionally attach merged `tags` and `user` entries. -/
def Scope.merge (s : Scope) (localContext : Option Obj) : Except String Obj :=
  match (localContext.getD []).find? (fun kv => disallowedKey kv.1) with
  | some kv =>
      .error ("Cannot set reserved context key " ++ kv.1
        ++ ". Use SDK methods to set this field.")
  | none =>
      let lc := localContext.getD []
      let merged := objAssign s.context lc
      let lcTags : Option Val := localContext.bind (fun o => lookupKey o "tags")
      let merged :=
        if s.tags.length > 0 || (lcTags.map Val.truthy).getD false then
          setKey merged "tags"
            (Val.vobj (objAssign
              (s.tags.map (fun kv => (kv.1, Val.vstr kv.2)))
              (match lcTags with
               | some v => if v.truthy then spreadFields v else []
               | none => [])))
        else merged
      let lcUser : Option Val := localContext.bind (fun o => lookupKey o "user")
      let merged :=
        if s.user.isSome || (lcUser.map Val.truthy).getD false then
          setKey merged "user"
            (Val.vobj (objAssign (s.user.getD [])
              (match lcUser with
               | some v => if v.truthy then spreadFields v else []
               | none => [])))
        else merged
      .ok merged

/-! ## Breadcrumbs (src/breadcrumbs.ts) -/

/-- A breadcrumb record (types.ts lines 142-172). A zero timestamp models the
JS falsy case (absent or `0`) that `add` replaces with the current time. -/
structure Breadcrumb where
  timestamp : Int
  btype : Option String
  category : Option String
  message : Option String
  level : Option String
  data : Option Val

/-- Breadcrumb buffer state (breadcrumbs.ts lines 7-13). -/
structure BreadcrumbManager where
  maxBreadcrumbs : Nat
  breadcrumbs : List Breadcrumb

/-- `new BreadcrumbManager(maxBreadcrumbs)` (breadcrumbs.ts lines 11-13). -/
def BreadcrumbManager.new (maxBreadcrumbs : Nat) : BreadcrumbManager :=
  { maxBreadcrumbs := maxBreadcrumbs, breadcrumbs := [] }

/-- The timestamp fill performed at the top of `add` (breadcrumbs.ts lines
20-23): a falsy timestamp is replaced by `Date.now()`, passed here as `now`. -/
def stampTimestamp (now : Int) (b : Breadcrumb) : Breadcrumb :=
  if b.timestamp = 0 then { b with timestamp := now } else b

/-- `BreadcrumbManager.add` (breadcrumbs.ts lines 19-32): fill the timestamp,
push, then shift out the oldest entry when the maximum is exceeded. -/
def BreadcrumbManager.add (m : BreadcrumbManager) (now : Int)
    (b : Breadcrumb) : BreadcrumbManager :=
  let b := stampTimestamp now b
  let l := m.breadcrumbs ++ [b]
  { m with breadcrumbs := if l.length > m.maxBreadcrumbs then l.tail else l }

/-- `BreadcrumbManager.getAll` (breadcrumbs.ts lines 38-41): returns a copy
of the internal list. -/
def BreadcrumbManager.getAll (m : BreadcrumbManager) : List Breadcrumb :=
  m.breadcrumbs

/-- `BreadcrumbManager.getCount` (breadcrumbs.ts lines 53-55). -/
def BreadcrumbManager.getCount (m : BreadcrumbManager) : Nat :=
  m.breadcrumbs.length

/-- A sequence of `add` calls, each with the `Date.now()` value observed at
that call. -/
def BreadcrumbManager.addAll (m : BreadcrumbManager)
    (xs : List (Int × Breadcrumb)) : BreadcrumbManager :=
  xs.foldl (fun m p => m.add p.1 p.2) m

/-! ## Serializer (src/serializer.ts, src/utils/stack-trace.ts) -/

/-- The value thrown to or passed into `captureError`, resolved into the
input kinds the serializer distinguishes: a genuine `Error` instance (with
its constructor name, `message` and `stack`), a non-`Error` object, a plain
string, or any other primitive. -/
inductive ErrInput where
  | errObj (className : String) (message : String) (stack : Option String)
  | objVal (fields : Obj)
  | strVal (s : String)
  | primVal (v : Val)

/-- Truthiness of the serializer input (for the leading falsy checks). -/
def ErrInput.truthy : ErrInput → Bool
  | .errObj _ _ _ => true
  | .objVal _ => true
  | .strVal s => s != ""
  | .primVal v => v.truthy

/-- Whether `error instanceof Error` holds. -/
def ErrInput.isErrorInstance : ErrInput → Bool
  | .errObj _ _ _ => true
  | _ => false

/-- `ErrorSerializer.extractMessage` (serializer.ts lines 191-217): falsy
input gives the literal fallback, an `Error` or error-like object gives its
truthy `message`, a string gives itself, anything else is JSON-stringified.
An `Error` with an empty message falls through every branch to
`JSON.stringify(error)`, which renders its (non-enumerable) fields as an
empty object. -/
def extractMessage (error : ErrInput) : String :=
  if !error.truthy then "Unknown error"
  else
    match error with
    | .errObj _ m _ =>
        if m != "" then m else "\x7b\x7d"
    | .objVal fs =>
        match lookupKey fs "message" with
        | some mv =>
            if mv.truthy then jsToString mv
            else (jsonStringify (Val.vobj fs)).getD "undefined"
        | none => (jsonStringify (Val.vobj fs)).getD "undefined"
    | .strVal s => s
    | .primVal v => (jsonStringify v).getD "undefined"

/-- `extractStackTrace` (stack-trace.ts lines 6-28): falsy input gives
`undefined`; an `Error` or object with a truthy `stack` gives that stack;
otherwise the function synthesizes a stack from a fresh `new Error()`.
`freshStack` is that runtime-supplied stack (a string under V8; `none`
models a runtime where the creation fails and the `catch` yields
`undefined`). -/
def extractStackTrace (freshStack : Option String) (error : ErrInput) :
    Option String :=
  if !error.truthy then none
  else
    match error with
    | .errObj _ _ stack =>
        match stack with
        | some st => if st != "" then some st else freshStack
        | none => freshStack
    | .objVal fs =>
        match lookupKey fs "stack" with
        | some v => if v.truthy then some (jsToString v) else freshStack
        | none => freshStack
    | .strVal _ => freshStack
    | .primVal _ => freshStack

/-- The runtime constructor name `error?.constructor?.name || "Error"`
(serializer.ts line 65): `Error` subclasses report their class name,
primitives report their wrapper class, and null or undefined fall back to
the literal. -/
def exceptionClassName : ErrInput → String
  | .errObj n _ _ => if n != "" then n else "Error"
  | .objVal _ => "Object"
  | .strVal _ => "String"
  | .primVal v =>
      match v with
      | .vnull => "Error"
      | .vundef => "Error"
      | .vbool _ => "Boolean"
      | .vnum _ => "Number"
      | .vstr _ => "String"
      | .varr _ => "Array"
      | .vobj _ => "Object"

/-- Wire-format event record (types.ts lines 87-136). -/
structure ErrorEvent where
  message : String
  level : String
  stack_trace : Option String
  context : Option Obj
  extra_context : Option Obj
  environment : Option String
  server_name : Option String
  release : Option String
  timestamp : String

/-- External inputs the serializer draws from the runtime: the output of the
stack-frame enricher `parseEnhancedFrames` (stack-trace.ts lines 207-245,
left abstract here — it depends on file-system reads and no claim inspects
frame structure), the fresh-error stack, and the current instant
`new Date().toISOString()`. -/
structure SerializeEnv where
  framesVal : Val
  freshStack : Option String
  nowIso : String

/-- Reserved context keys that are SDK-managed
(`ErrorSerializer.RESERVED_CONTEXT_KEYS`, serializer.ts lines 12-19). Note
this list has six entries: it includes `user`, unlike the five-element
`Scope.RESERVED_KEYS`. -/
def RESERVED_CONTEXT_KEYS : List String :=
  ["exception_class", "frames", "queries", "request", "user", "breadcrumbs"]

/-- JS representation of a stored breadcrumb, with absent optional fields
omitted. -/
def breadcrumbVal (b : Breadcrumb) : Val :=
  .vobj ([("timestamp", Val.vnum b.timestamp)]
    ++ (match b.btype with | some t => [("type", Val.vstr t)] | none => [])
    ++ (match b.category with | some c => [("category", Val.vstr c)] | none => [])
    ++ (match b.message with | some msg => [("message", Val.vstr msg)] | none => [])
    ++ (match b.level with | some l => [("level", Val.vstr l)] | none => [])
    ++ (match b.data with | some d => [("data", d)] | none => []))

/-- Truthiness filter applied to the optional string config fields before
they are attached to the event (`if (environment) ...`, serializer.ts lines
97-105): an absent or empty string is omitted. -/
def truthyStr : Option String → Option String
  | some s => if s != "" then some s else none
  | none => none

/-- `ErrorSerializer.serialize` (serializer.ts lines 33-108): extract
message and stack, merge scope with local context (propagating the reserved
key error), partition the merged keys by `RESERVED_CONTEXT_KEYS` into system
and extra context, stamp `exception_class`, `frames` (for `Error` instances),
a default `queries` and non-empty `breadcrumbs` into the system context, and
assemble the event, attaching `extra_context` only when non-empty and the
optional string fields only when truthy. The source performs the optional
attachments as sequential conditional assignments on the fresh event; the
record literal here is field-for-field the same result. -/
def serialize (env : SerializeEnv) (error : ErrInput) (level : String)
    (scope : Scope) (breadcrumbs : List Breadcrumb) (localContext : Option Obj)
    (environment serverName release : Option String) :
    Except String ErrorEvent :=
  let message := extractMessage error
  let stackTrace := extractStackTrace env.freshStack error
  match scope.merge localContext with
  | .error e => .error e
  | .ok mergedContext =>
      let systemContext :=
        mergedContext.filter (fun kv => RESERVED_CONTEXT_KEYS.contains kv.1)
      let extraContext :=
        mergedContext.filter (fun kv => !(RESERVED_CONTEXT_KEYS.contains kv.1))
      let systemContext :=
        setKey systemContext "exception_class" (.vstr (exceptionClassName error))
      let systemContext :=
        if error.isErrorInstance then setKey systemContext "frames" env.framesVal
        else systemContext
      let systemContext :=
        match lookupKey systemContext "queries" with
        | some v => if v.truthy then systemContext
                    else setKey systemContext "queries" (.varr [])
        | none => setKey systemContext "queries" (.varr [])
      let systemContext :=
        if breadcrumbs.length > 0 then
          setKey systemContext "breadcrumbs" (.varr (breadcrumbs.map breadcrumbVal))
        else systemContext
      .ok {
        message := message
        level := level
        stack_trace := stackTrace
        context := some systemContext
        extra_context :=
          if extraContext.length > 0 then some extraContext else none
        environment := truthyStr environment
        server_name := truthyStr serverName
        release := truthyStr release
        timestamp := env.nowIso }

/-- `ErrorSerializer.serializeMessage` (serializer.ts lines 123-183): like
`serialize` but with a verbatim message, no stack trace, no exception class
and no frames. -/
def serializeMessage (env : SerializeEnv) (message : String) (level : String)
    (scope : Scope) (breadcrumbs : List Breadcrumb) (localContext : Option Obj)
    (environment serverName release : Option String) :
    Except String ErrorEvent :=
  match scope.merge localContext with
  | .error e => .error e
  | .ok mergedContext =>
      let systemContext :=
        mergedContext.filter (fun kv => RESERVED_CONTEXT_KEYS.contains kv.1)
      let extraContext :=
        mergedContext.filter (fun kv => !(RESERVED_CONTEXT_KEYS.contains kv.1))
      let systemContext :=
        match lookupKey systemContext "queries" with
        | some v => if v.truthy then systemContext
                    else setKey systemContext "queries" (.varr [])
        | none => setKey systemContext "queries" (.varr [])
      let systemContext :=
        if breadcrumbs.length > 0 then
          setKey systemContext "breadcrumbs" (.varr (breadcrumbs.map breadcrumbVal))
        else systemContext
      .ok {
        message := message
        level := level
        stack_trace := none
        context := some systemContext
        extra_context :=
          if extraContext.length > 0 then some extraContext else none
        environment := truthyStr environment
        server_name := truthyStr serverName
        release := truthyStr release
        timestamp := env.nowIso }

/-! ## Transport (src/transport.ts) -/

/-- The five valid severity levels (transport.ts line 126). -/
def validLevels : List String :=
  ["critical", "error", "warning", "info", "debug"]

/-- Message-truncation block of `validateEvent` (transport.ts lines 95-100):
a message longer than 10000 characters is replaced by its first 10000
characters plus the literal suffix. -/
def truncateMessage (event : ErrorEvent) : ErrorEvent :=
  if event.message.length > 10000 then
    { event with message := event.message.take 10000 ++ "...[truncated]" }
  else event

/-- Stack-trace-truncation block of `validateEvent` (transport.ts lines
103-108). -/
def truncateStack (event : ErrorEvent) : ErrorEvent :=
  match event.stack_trace with
  | some st =>
      if st.length > 500000 then
        { event with stack_trace := some (st.take 500000 ++ "\n...[truncated]") }
      else event
  | none => event

/-- Context-size block of `validateEvent` (transport.ts lines 111-123): a
context whose JSON serialization exceeds 256000 bytes is replaced wholesale
by a diagnostic object. -/
def truncateContext (event : ErrorEvent) : ErrorEvent :=
  match event.context with
  | some ctx =>
      let contextSize := ((jsonStringify (Val.vobj ctx)).getD "undefined").length
      if contextSize > 256000 then
        { event with context := some (
            [("_error", .vstr "Context too large and was truncated"),
             ("_original_size", .vnum contextSize),
             ("_max_size", .vnum 256000)]) }
      else event
  | none => event

/-- `Transport.validateEvent` (transport.ts lines 90-130). The source
mutates the event in place and may throw; the result here is the event after
whatever mutations ran, paired with the thrown message if any. An empty
message throws immediately, before any mutation; then the three truncation
blocks run in source order; an invalid level throws last. -/
def validateEvent (event : ErrorEvent) : ErrorEvent × Option String :=
  if event.message.length = 0 then (event, some "Event message is required")
  else
    let event := truncateContext (truncateStack (truncateMessage event))
    if validLevels.contains event.level then (event, none)
    else (event, some ("Invalid level: " ++ event.level))

/-- Outcome of the external HTTP collaborator for one request: a response
with a status code, or a network/timeout failure (the `fetch` rejection or
abort). -/
inductive HttpOutcome where
  | resp (status : Nat)
  | failure

/-- `Transport.send` (transport.ts lines 22-84): validate (a throw is caught
and collapses to `null` before any request), POST the event, then map the
status — 202 yields a locally generated event id (`genId` stands for the
`Date.now()`/random id the source builds), while 401, 400, any other status
and every network failure collapse to `null`. The second component records
whether the HTTP request was issued at all. -/
def Transport.send (http : HttpOutcome) (genId : String)
    (event : ErrorEvent) : Option String × Bool :=
  match validateEvent event with
  | (_, some _) => (none, false)
  | (_, none) =>
      match http with
      | .resp status => if status = 202 then (some genId, true) else (none, true)
      | .failure => (none, true)

/-! ## Client (src/client.ts) -/

/-- User-supplied configuration (types.ts lines 9-81); `none` models an
omitted optional field, and for `maxBreadcrumbs`/`timeout` the value `0` is
the falsy number the `||` defaulting treats like an absent field. -/
structure KeplogConfig where
  ingestKey : String
  baseUrl : Option String
  environment : Option String
  release : Option String
  serverName : Option String
  maxBreadcrumbs : Option Nat
  enabled : Option Bool
  debug : Option Bool
  timeout : Option Nat

/-- The resolved configuration the constructor stores (client.ts lines
45-58). -/
structure ResolvedConfig where
  baseUrl : String
  environment : String
  release : Option String
  serverName : String
  maxBreadcrumbs : Nat
  enabled : Bool
  debug : Bool
  timeout : Nat

/-- JS `config.x || dflt` defaulting on an optional string: an absent or
empty (falsy) string yields the default. -/
def orDefaultStr (v : Option String) (dflt : String) : String :=
  match v with
  | some s => if s != "" then s else dflt
  | none => dflt

/-- JS `config.x || dflt` defaulting on an optional number: an absent or
zero (falsy) number yields the default. -/
def orDefaultNat (v : Option Nat) (dflt : Nat) : Nat :=
  match v with
  | some n => if n != 0 then n else dflt
  | none => dflt

/-- The `KeplogClient` constructor defaulting (client.ts lines 38-63):
reject an empty ingest key, resolve each config field through its default
(`detectedEnv` and `detectedServer` stand for `detectEnvironment()` and
`detectServerName()`), cap the timeout at 10000, and size the breadcrumb
buffer by the resolved `maxBreadcrumbs`. -/
def mkClient (detectedEnv detectedServer : String) (cfg : KeplogConfig) :
    Except String ResolvedConfig :=
  if cfg.ingestKey = "" then .error "Keplog Ingest Key is required"
  else
    .ok {
      baseUrl := orDefaultStr cfg.baseUrl "http://localhost:8080"
      environment := orDefaultStr cfg.environment detectedEnv
      release := cfg.release
      serverName := orDefaultStr cfg.serverName detectedServer
      maxBreadcrumbs := orDefaultNat cfg.maxBreadcrumbs 100
      enabled := cfg.enabled.getD true
      debug := cfg.debug.getD false
      timeout := min (orDefaultNat cfg.timeout 5000) 10000 }

/-- Behaviour of a configured `beforeSend` hook when the pipeline invokes
it: it may return a falsy value or a (possibly modified) event, it may
throw, and it may first synchronously re-enter `captureError` with some
error value before returning or throwing. -/
inductive HookBehavior where
  | ret (f : ErrorEvent → Option ErrorEvent)
  | throwsErr
  | nestedThenRet (nestedError : ErrInput) (f : ErrorEvent → Option ErrorEvent)
  | nestedThenThrow (nestedError : ErrInput)

/-- The client data `captureError` reads: the enabled flag, the configured
hook and config strings, the scope and the breadcrumb buffer. -/
structure Client where
  enabled : Bool
  beforeSend : Option HookBehavior
  environment : Option String
  serverName : Option String
  release : Option String
  scope : Scope
  breadcrumbs : BreadcrumbManager

/-- External collaborators of one capture: serializer runtime inputs, the
HTTP outcome and the generated event id. -/
structure CaptureRuntime where
  env : SerializeEnv
  http : HttpOutcome
  genId : String

/-- Observable steps of the capture pipeline: the serializer call, the
`beforeSend` invocation and the `transport.send` dispatch. -/
inductive Action where
  | serializeInvoked
  | hookInvoked
  | dispatchInvoked
deriving DecidableEq, Repr

/-- `KeplogClient.captureError` (client.ts lines 103-161). State is the
`isCapturing` flag; the result is the flag after the call, the trace of
observable steps, and the returned event id. Disabled tracking and the
recursion guard return before the `try`, leaving the flag untouched; every
path through the `try` ends in the `finally` that clears the flag. A throw
from the serializer (for example the reserved key error from `merge`) is
caught by the top-level `catch` and becomes a `null` result; a hook throw is
caught by the inner `catch` (client.ts lines 143-147). A hook that re-enters
runs the same `captureError` on the same client with the flag still set;
`fuel` bounds that nesting depth (the guard makes depth beyond one
unreachable, and a zero-fuel nested site contributes the empty trace the
guard produces). -/
def captureError (fuel : Nat) (c : Client) (rt : CaptureRuntime)
    (error : ErrInput) (localContext : Option Obj) (capturing : Bool) :
    Bool × List Action × Option String :=
  if c.enabled = false then (capturing, [], none)
  else if capturing then (capturing, [], none)
  else
    let body : List Action × Option String :=
      match serialize rt.env error "error" c.scope c.breadcrumbs.getAll
          localContext c.environment c.serverName c.release with
      | .error _ => ([], none)
      | .ok event =>
          match c.beforeSend with
          | none =>
              ([.dispatchInvoked], (Transport.send rt.http rt.genId event).1)
          | some hb =>
              match hb with
              | .ret f =>
                  match f event with
                  | none => ([.hookInvoked], none)
                  | some ev2 =>
                      ([.hookInvoked, .dispatchInvoked],
                        (Transport.send rt.http rt.genId ev2).1)
              | .throwsErr => ([.hookInvoked], none)
              | .nestedThenRet nerr f =>
                  let nestedTrace : List Action :=
                    match fuel with
                    | 0 => []
                    | fuel' + 1 =>
                        (captureError fuel' c rt nerr none true).2.1
                  match f event with
                  | none => (.hookInvoked :: nestedTrace, none)
                  | some ev2 =>
                      (.hookInvoked :: nestedTrace ++ [.dispatchInvoked],
                        (Transport.send rt.http rt.genId ev2).1)
              | .nestedThenThrow nerr =>
                  let nestedTrace : List Action :=
                    match fuel with
                    | 0 => []
                    | fuel' + 1 =>
                        (captureError fuel' c rt nerr none true).2.1
                  (.hookInvoked :: nestedTrace, none)
    (false, .serializeInvoked :: body.1, body.2)

/-! ## Shared lemmas -/

/-- Dropping past an appended prefix of known length. -/
theorem drop_append_length {α : Type} (A R : List α) (m : Nat) :
    (A ++ R).drop (A.length + m) = R.drop m := by
  induction A with
  | nil => simp
  | cons x xs ih => simp [Nat.succ_add, ih]

/-- Keeping the last `n` elements commutes with appending: trimming first
and then appending and trimming again equals trimming the whole list. -/
theorem drop_sub_append_absorb {α : Type} (n : Nat) (a b : List α) :
    ((a.drop (a.length - n)) ++ b).drop ((a.drop (a.length - n) ++ b).length - n)
      = (a ++ b).drop ((a ++ b).length - n) := by
  rcases le_or_lt a.length n with h | h
  · have hz : a.length - n = 0 := by omega
    simp [hz]
  · have hlen : (a.drop (a.length - n)).length = n := by
      simp only [List.length_drop]; omega
    have h1 : (a.drop (a.length - n) ++ b).length - n = b.length := by
      simp [hlen]
    rw [h1]
    have h2 : (a ++ b).length - n = (a.take (a.length - n)).length + b.length := by
      simp only [List.length_append, List.length_take]; omega
    rw [h2]
    have h4 : a ++ b = a.take (a.length - n) ++ (a.drop (a.length - n) ++ b) := by
      rw [← List.append_assoc, List.take_append_drop]
    rw [h4, drop_append_length]

/-- One `add` on an in-bounds buffer keeps exactly the last
`maxBreadcrumbs` entries of the appended list. -/
theorem add_breadcrumbs_eq (m : BreadcrumbManager) (now : Int) (b : Breadcrumb)
    (h : m.breadcrumbs.length ≤ m.maxBreadcrumbs) :
    (m.add now b).breadcrumbs
      = (m.breadcrumbs ++ [stampTimestamp now b]).drop
          ((m.breadcrumbs ++ [stampTimestamp now b]).length - m.maxBreadcrumbs) := by
  unfold BreadcrumbManager.add
  by_cases hgt : (m.breadcrumbs ++ [stampTimestamp now b]).length > m.maxBreadcrumbs
  · have hlen : (m.breadcrumbs ++ [stampTimestamp now b]).length
        = m.breadcrumbs.length + 1 := by simp
    have hdrop : (m.breadcrumbs ++ [stampTimestamp now b]).length
        - m.maxBreadcrumbs = 1 := by omega
    simp only [hgt, if_true, hdrop]
    simp [← List.drop_one]
  · have hdrop : (m.breadcrumbs ++ [stampTimestamp now b]).length
        - m.maxBreadcrumbs = 0 := by
      simp only [List.length_append, List.length_cons, List.length_nil] at hgt ⊢
      omega
    simp only [hgt, if_false, hdrop, List.drop_zero]

/-- The `addAll` invariant: starting from an in-bounds buffer, the buffer
afterwards holds the last `maxBreadcrumbs` entries of the old buffer
followed by the stamped insertions, and the capacity is unchanged. -/
theorem addAll_breadcrumbs (xs : List (Int × Breadcrumb)) :
    ∀ (m : BreadcrumbManager), m.breadcrumbs.length ≤ m.maxBreadcrumbs →
      (m.addAll xs).maxBreadcrumbs = m.maxBreadcrumbs ∧
      (m.addAll xs).breadcrumbs
        = (m.breadcrumbs ++ xs.map (fun p => stampTimestamp p.1 p.2)).drop
            ((m.breadcrumbs ++ xs.map (fun p => stampTimestamp p.1 p.2)).length
              - m.maxBreadcrumbs) := by
  induction xs with
  | nil =>
      intro m h
      refine ⟨rfl, ?_⟩
      have hz : (m.breadcrumbs
          ++ List.map (fun p => stampTimestamp p.1 p.2)
            ([] : List (Int × Breadcrumb))).length
          - m.maxBreadcrumbs = 0 := by
        simp; omega
      rw [hz]
      simp [BreadcrumbManager.addAll]
  | cons x xs ih =>
      intro m h
      have hmax : (m.add x.1 x.2).maxBreadcrumbs = m.maxBreadcrumbs := rfl
      have hstep := add_breadcrumbs_eq m x.1 x.2 h
      have hlen' : (m.add x.1 x.2).breadcrumbs.length
          ≤ (m.add x.1 x.2).maxBreadcrumbs := by
        rw [hstep, hmax]
        simp only [List.length_drop]
        omega
      obtain ⟨ihmax, ihbuf⟩ := ih (m.add x.1 x.2) hlen'
      have haddAll : (m.addAll (x :: xs)) = ((m.add x.1 x.2).addAll xs) := rfl
      refine ⟨by rw [haddAll, ihmax, hmax], ?_⟩
      rw [haddAll, ihbuf, hmax, hstep]
      have := drop_sub_append_absorb m.maxBreadcrumbs
        (m.breadcrumbs ++ [stampTimestamp x.1 x.2])
        (xs.map (fun p => stampTimestamp p.1 p.2))
      rw [this]
      simp [List.append_assoc]

/-- C5: for every sequence of `add` calls on a buffer with maximum `maxB`,
`getAll` returns exactly the most recent `min n maxB` stamped insertions in
insertion order, so its length is `min n maxB ≤ maxB` and the oldest entries
are evicted first. -/
theorem breadcrumb_fifo_eviction (maxB : Nat) (xs : List (Int × Breadcrumb)) :
    ((BreadcrumbManager.new maxB).addAll xs).getAll
        = (xs.map (fun p => stampTimestamp p.1 p.2)).drop (xs.length - maxB)
    ∧ ((BreadcrumbManager.new maxB).addAll xs).getAll.length
        = min xs.length maxB := by
  obtain ⟨hmax, hbuf⟩ := addAll_breadcrumbs xs (BreadcrumbManager.new maxB)
    (by simp [BreadcrumbManager.new])
  have hget : ((BreadcrumbManager.new maxB).addAll xs).getAll
      = (xs.map (fun p => stampTimestamp p.1 p.2)).drop (xs.length - maxB) := by
    rw [BreadcrumbManager.getAll, hbuf]
    simp [BreadcrumbManager.new]
  refine ⟨hget, ?_⟩
  rw [hget]
  simp only [List.length_drop, List.length_map]
  omega

/-- C8: at the validate-before-send step, a message longer than 10000
characters is replaced by exactly its first 10000 characters followed by the
literal suffix, and a message of length at most 10000 is left unchanged
(an empty message makes validation throw, also leaving it unchanged). -/
theorem validateEvent_message_truncation (event : ErrorEvent) :
    ((validateEvent event).1).message
      = if event.message.length > 10000
        then event.message.take 10000 ++ "...[truncated]"
        else event.message := by
  have hstack : ∀ e : ErrorEvent, (truncateStack e).message = e.message := by
    intro e
    unfold truncateStack
    cases e.stack_trace with
    | none => rfl
    | some st => by_cases h : st.length > 500000 <;> simp [h]
  have hctx : ∀ e : ErrorEvent, (truncateContext e).message = e.message := by
    intro e
    unfold truncateContext
    cases e.context with
    | none => rfl
    | some ctx =>
        by_cases h : ((jsonStringify (Val.vobj ctx)).getD "undefined").length
            > 256000 <;> simp [h]
  unfold validateEvent
  by_cases h0 : event.message.length = 0
  · have hno : ¬ event.message.length > 10000 := by omega
    simp [h0, hno]
  · rw [if_neg h0]
    have hfst : ∀ (c : Bool) (x : ErrorEvent) (y z : Option String),
        (if c = true then (x, y) else (x, z)).1 = x := by
      intro c x y z
      cases c <;> rfl
    rw [hfst]
    rw [hctx, hstack]
    unfold truncateMessage
    by_cases h1 : event.message.length > 10000 <;> simp [h1]

/-- C9: an event with an empty message is rejected by validation before
dispatch — `Transport.send` returns `null` and no HTTP request is made, and
the rejection is absorbed rather than thrown. An absent message is modelled
by the empty string. -/
theorem send_empty_message_no_request (http : HttpOutcome) (genId : String)
    (event : ErrorEvent) (h : event.message = "") :
    Transport.send http genId event = (none, false) := by
  unfold Transport.send validateEvent
  simp [h]

/-- C10: constructing a client with `maxBreadcrumbs` set to `0` (the falsy
number) or omitted yields a breadcrumb buffer with the default capacity
`100` — breadcrumb recording cannot be disabled by configuring a zero
maximum. -/
theorem mkClient_falsy_maxBreadcrumbs (dEnv dSrv : String)
    (cfg : KeplogConfig) (hKey : cfg.ingestKey ≠ "")
    (hMax : cfg.maxBreadcrumbs = none ∨ cfg.maxBreadcrumbs = some 0) :
    (mkClient dEnv dSrv cfg).map
        (fun rc => (BreadcrumbManager.new rc.maxBreadcrumbs).maxBreadcrumbs)
      = .ok 100 := by
  unfold mkClient
  simp only [hKey, if_false, Except.map]
  rcases hMax with h | h <;>
    simp [h, orDefaultNat, BreadcrumbManager.new]

/-- C10 witness: a concrete config with `maxBreadcrumbs` set to `0`. -/
def cfgZeroMax : KeplogConfig :=
  { ingestKey := "kep_ingest_k", baseUrl := none, environment := none,
    release := none, serverName := none, maxBreadcrumbs := some 0,
    enabled := none, debug := none, timeout := none }

/-- Witness for C10 at a concrete configuration. -/
theorem mkClient_falsy_maxBreadcrumbs_witness :
    (mkClient "production" "host" cfgZeroMax).map
        (fun rc => (BreadcrumbManager.new rc.maxBreadcrumbs).maxBreadcrumbs)
      = .ok 100 :=
  mkClient_falsy_maxBreadcrumbs "production" "host" cfgZeroMax
    (by decide) (Or.inr rfl)

/-- C9 witness event: well-formed apart from the empty message. -/
def evEmptyMessage : ErrorEvent :=
  { message := "", level := "error", stack_trace := none,
    context := some [], extra_context := none, environment := none,
    server_name := none, release := none, timestamp := "t" }

/-- Witness for C9 at a concrete event with empty message. -/
theorem send_empty_message_no_request_witness :
    Transport.send (.resp 202) "evt_1" evEmptyMessage = (none, false) :=
  send_empty_message_no_request (.resp 202) "evt_1" evEmptyMessage rfl

/-- The key membership characterizing a `disallowedKey`: reserved for
`setContext` but not capture-allowed, which is exactly one of
`exception_class`, `frames`, `breadcrumbs`. -/
theorem disallowedKey_iff (k : String) :
    disallowedKey k = true
      ↔ k ∈ (["exception_class", "frames", "breadcrumbs"] : List String) := by
  unfold disallowedKey RESERVED_KEYS ALLOWED_IN_CAPTURE
  by_cases h1 : k = "exception_class"
  · simp [h1]
  by_cases h2 : k = "frames"
  · simp [h2]
  by_cases h3 : k = "queries"
  · simp [h3]
  by_cases h4 : k = "request"
  · simp [h4]
  by_cases h5 : k = "breadcrumbs"
  · simp [h5]
  by_cases h6 : k = "user"
  · simp [h6]
  simp [h1, h2, h3, h4, h5, h6]

/-- C6: `Scope.merge` fails with the reserved-key error if and only if the
local context contains at least one of the reserved keys outside the merge
allow-list — `exception_class`, `frames` or `breadcrumbs`; any other keys
(including the allow-listed `user`, `request`, `queries`) never make it
fail, and an absent local context never fails. -/
theorem merge_reservedKeyError_iff (s : Scope) (lc : Obj) :
    ((s.merge (some lc)).isOk = false
      ↔ ∃ kv ∈ lc,
          kv.1 ∈ (["exception_class", "frames", "breadcrumbs"] : List String))
    ∧ (s.merge none).isOk = true := by
  constructor
  · unfold Scope.merge
    simp only [Option.getD_some]
    cases hf : lc.find? (fun kv => disallowedKey kv.1) with
    | none =>
        simp only [hf, Except.isOk, Except.toBool]
        constructor
        · intro h
          exact absurd h (by simp)
        · rintro ⟨kv, hmem, hk⟩
          have hn := List.find?_eq_none.mp hf kv hmem
          rw [disallowedKey_iff] at hn
          exact absurd hk hn
    | some kv =>
        simp only [hf, Except.isOk, Except.toBool]
        constructor
        · intro _
          exact ⟨kv, List.mem_of_find?_eq_some hf,
            (disallowedKey_iff kv.1).mp (by simpa using List.find?_some hf)⟩
        · intro _
          trivial
  · rfl

/-- Keys of an object spread-merge: the keys of the left operand followed by
the right-only keys. -/
theorem keysOf_objAssign (a b : Obj) :
    keysOf (objAssign a b)
      = keysOf a ++ keysOf (b.filter (fun kv => (lookupKey a kv.1).isNone)) := by
  unfold keysOf objAssign
  rw [List.map_append, List.map_map]
  rfl

/-- Keys after a property write: the old keys, with the written key appended
when it was not already present. -/
theorem keysOf_setKey (o : Obj) (k : String) (v : Val) :
    keysOf (setKey o k v)
      = keysOf o ++ (if (lookupKey o k).isNone then [k] else []) := by
  unfold setKey
  rw [keysOf_objAssign]
  congr 1
  by_cases h : (lookupKey o k).isNone <;> simp [h, keysOf]

/-- A key with a defined lookup is among the object's keys. -/
theorem mem_keysOf_of_lookup_isSome (o : Obj) (k : String)
    (h : (lookupKey o k).isSome) : k ∈ keysOf o := by
  unfold lookupKey at h
  cases hf : o.find? (fun kv => kv.1 == k) with
  | none => rw [hf] at h; simp at h
  | some kv =>
      have hp : kv.1 = k := by simpa using List.find?_some hf
      exact List.mem_map.mpr ⟨kv, List.mem_of_find?_eq_some hf, hp⟩

/-- Membership in the keys after a property write. -/
theorem mem_keysOf_setKey (o : Obj) (k : String) (v : Val) (q : String) :
    q ∈ keysOf (setKey o k v) ↔ q ∈ keysOf o ∨ q = k := by
  rw [keysOf_setKey]
  by_cases h : (lookupKey o k).isNone
  · simp [h]
  · rw [if_neg h, List.append_nil]
    constructor
    · exact Or.inl
    · rintro (hq | rfl)
      · exact hq
      · refine mem_keysOf_of_lookup_isSome o q ?_
        cases hl : lookupKey o q with
        | none => rw [hl] at h; simp at h
        | some v' => simp

/-- Every key of the reserved-partition of a mapping passes the reserved
check, and a property write of a reserved key preserves that. -/
theorem allReserved_setKey (o : Obj) (k : String) (v : Val)
    (ho : ∀ q ∈ keysOf o, RESERVED_CONTEXT_KEYS.contains q = true)
    (hk : RESERVED_CONTEXT_KEYS.contains k = true) :
    ∀ q ∈ keysOf (setKey o k v), RESERVED_CONTEXT_KEYS.contains q = true := by
  intro q hq
  rcases (mem_keysOf_setKey o k v q).mp hq with h | rfl
  · exact ho q h
  · exact hk

/-- A property write preserves existing keys. -/
theorem keysOf_subset_setKey (o : Obj) (k : String) (v : Val) (q : String)
    (hq : q ∈ keysOf o) : q ∈ keysOf (setKey o k v) :=
  (mem_keysOf_setKey o k v q).mpr (Or.inl hq)

/-- A V8-like runtime environment for the serializer: a fresh `Error` has a
stack string, as V8 guarantees. -/
def envV8 : SerializeEnv :=
  { framesVal := .varr [], freshStack := some "Error\n    at test",
    nowIso := "2026-01-01T00:00:00.000Z" }

/-- A scope whose only state is a user record. -/
def scopeWithUser : Scope :=
  { context := [], tags := [], user := some [("id", Val.vstr "123")] }

/-- C2 counterexample: the claim places `user` in `extra_context`, but for a
scope carrying only a user the serializer puts the merged `user` key into
the event's `context` (its reserved list has six entries, `user` included)
and emits no `extra_context` at all. -/
theorem serialize_user_in_context_counterexample :
    (serialize envV8 (.strVal "x") "error" scopeWithUser [] none
        none none none).map
        (fun ev => (lookupKey (ev.context.getD []) "user", ev.extra_context))
      = .ok (some (Val.vobj [("id", Val.vstr "123")]), none) := by
  rfl

/-- C2 as amended: the serializer partitions the merged mapping by its
six-element reserved list (`exception_class`, `frames`, `queries`,
`request`, `user`, `breadcrumbs`): every merged key on that list ends up
among the keys of the event's `context` (whose keys all stay on the list),
every other merged key is placed in `extra_context` with its value, and
`extra_context` is omitted entirely when it would be empty. -/
theorem serialize_partition (env : SerializeEnv) (error : ErrInput)
    (level : String) (s' : Scope) (bc : List Breadcrumb) (lc : Option Obj)
    (e sn r : Option String) (merged : Obj) (event : ErrorEvent)
    (hM : s'.merge lc = .ok merged)
    (hE : serialize env error level s' bc lc e sn r = .ok event) :
    ((keysOf (event.context.getD [])).all
        (fun k => RESERVED_CONTEXT_KEYS.contains k) = true)
    ∧ ((merged.filter (fun kv => RESERVED_CONTEXT_KEYS.contains kv.1)).all
        (fun kv => (keysOf (event.context.getD [])).contains kv.1) = true)
    ∧ event.extra_context.getD []
        = merged.filter (fun kv => !(RESERVED_CONTEXT_KEYS.contains kv.1))
    ∧ (event.extra_context = none
        ↔ merged.filter (fun kv => !(RESERVED_CONTEXT_KEYS.contains kv.1)) = []) := by
  unfold serialize at hE
  rw [hM] at hE
  simp only [Except.ok.injEq] at hE
  subst hE
  set sys0 := merged.filter (fun kv => RESERVED_CONTEXT_KEYS.contains kv.1) with hsys0
  set sys1 := setKey sys0 "exception_class"
    (.vstr (exceptionClassName error)) with hsys1
  set sys2 := if error.isErrorInstance
    then setKey sys1 "frames" env.framesVal else sys1 with hsys2
  set sys3 := (match lookupKey sys2 "queries" with
    | some v => if v.truthy then sys2 else setKey sys2 "queries" (.varr [])
    | none => setKey sys2 "queries" (.varr [])) with hsys3
  set sys4 := if bc.length > 0
    then setKey sys3 "breadcrumbs" (.varr (bc.map breadcrumbVal))
    else sys3 with hsys4
  have hall0 : ∀ q ∈ keysOf sys0, RESERVED_CONTEXT_KEYS.contains q = true := by
    intro q hq
    obtain ⟨kv, hkv, rfl⟩ := List.mem_map.mp hq
    exact (List.mem_filter.mp hkv).2
  have hall1 : ∀ q ∈ keysOf sys1, RESERVED_CONTEXT_KEYS.contains q = true :=
    allReserved_setKey _ _ _ hall0 (by decide)
  have hall2 : ∀ q ∈ keysOf sys2, RESERVED_CONTEXT_KEYS.contains q = true := by
    rw [hsys2]
    by_cases hi : error.isErrorInstance = true
    · simp only [hi, if_true]
      exact allReserved_setKey _ _ _ hall1 (by decide)
    · simp only [hi, if_false]
      exact hall1
  have hall3 : ∀ q ∈ keysOf sys3, RESERVED_CONTEXT_KEYS.contains q = true := by
    rw [hsys3]
    cases hq2 : lookupKey sys2 "queries" with
    | none => exact allReserved_setKey _ _ _ hall2 (by decide)
    | some v =>
        by_cases ht : v.truthy = true
        · simp only [ht, if_true]
          exact hall2
        · simp only [ht, if_false]
          exact allReserved_setKey _ _ _ hall2 (by decide)
  have hall4 : ∀ q ∈ keysOf sys4, RESERVED_CONTEXT_KEYS.contains q = true := by
    rw [hsys4]
    by_cases hb : bc.length > 0
    · simp only [hb, if_true]
      exact allReserved_setKey _ _ _ hall3 (by decide)
    · simp only [hb, if_false]
      exact hall3
  have hsub1 : ∀ q ∈ keysOf sys0, q ∈ keysOf sys1 := by
    intro q hq
    exact keysOf_subset_setKey _ _ _ _ hq
  have hsub2 : ∀ q ∈ keysOf sys1, q ∈ keysOf sys2 := by
    intro q hq
    rw [hsys2]
    by_cases hi : error.isErrorInstance = true <;> simp only [hi, if_true, if_false]
    · exact keysOf_subset_setKey _ _ _ _ hq
    · exact hq
  have hsub3 : ∀ q ∈ keysOf sys2, q ∈ keysOf sys3 := by
    intro q hq
    rw [hsys3]
    cases hq2 : lookupKey sys2 "queries" with
    | none => exact keysOf_subset_setKey _ _ _ _ hq
    | some v =>
        by_cases ht : v.truthy = true <;> simp only [ht, if_true, if_false]
        · exact hq
        · exact keysOf_subset_setKey _ _ _ _ hq
  have hsub4 : ∀ q ∈ keysOf sys3, q ∈ keysOf sys4 := by
    intro q hq
    rw [hsys4]
    by_cases hb : bc.length > 0 <;> simp only [hb, if_true, if_false]
    · exact keysOf_subset_setKey _ _ _ _ hq
    · exact hq
  refine ⟨?_, ?_, ?_, ?_⟩
  · rw [List.all_eq_true]
    intro q hq
    exact hall4 q hq
  · rw [List.all_eq_true]
    intro kv hkv
    rw [List.elem_iff]
    exact hsub4 _ (hsub3 _ (hsub2 _ (hsub1 _
      (List.mem_map.mpr ⟨kv, hkv, rfl⟩))))
  · by_cases hlen :
        (merged.filter (fun kv => !(RESERVED_CONTEXT_KEYS.contains kv.1))).length > 0
    · rw [if_pos hlen]
      rfl
    · have hnil :
          (merged.filter (fun kv => !(RESERVED_CONTEXT_KEYS.contains kv.1))) = [] :=
        List.length_eq_zero.mp (Nat.eq_zero_of_not_pos hlen)
      rw [if_neg hlen, hnil]
      rfl
  · by_cases hlen :
        (merged.filter (fun kv => !(RESERVED_CONTEXT_KEYS.contains kv.1))).length > 0
    · rw [if_pos hlen]
      constructor
      · intro h
        exact absurd h (by simp)
      · intro h
        rw [h] at hlen
        simp at hlen
    · have hnil :
          (merged.filter (fun kv => !(RESERVED_CONTEXT_KEYS.contains kv.1))) = [] :=
        List.length_eq_zero.mp (Nat.eq_zero_of_not_pos hlen)
      rw [if_neg hlen, hnil]
      simp

/-- C2 witness scope: a custom context key plus a user record. -/
def scopeC2 : Scope :=
  { context := [("order_id", Val.vnum 5)], tags := [],
    user := some [("id", Val.vstr "1")] }

/-- The merge result of `scopeC2` with no local context. -/
def mergedC2 : Obj :=
  [("order_id", Val.vnum 5), ("user", Val.vobj [("id", Val.vstr "1")])]

/-- The event `serialize` produces from `scopeC2` for a string error. -/
def eventC2 : ErrorEvent :=
  { message := "x", level := "error",
    stack_trace := some "Error\n    at test",
    context := some [("user", Val.vobj [("id", Val.vstr "1")]),
      ("exception_class", Val.vstr "String"), ("queries", Val.varr [])],
    extra_context := some [("order_id", Val.vnum 5)],
    environment := none, server_name := none, release := none,
    timestamp := "2026-01-01T00:00:00.000Z" }

/-- Witness for the amended C2 at a concrete scope and event. -/
theorem serialize_partition_witness :
    ((keysOf (eventC2.context.getD [])).all
        (fun k => RESERVED_CONTEXT_KEYS.contains k) = true)
    ∧ ((mergedC2.filter (fun kv => RESERVED_CONTEXT_KEYS.contains kv.1)).all
        (fun kv => (keysOf (eventC2.context.getD [])).contains kv.1) = true)
    ∧ eventC2.extra_context.getD []
        = mergedC2.filter (fun kv => !(RESERVED_CONTEXT_KEYS.contains kv.1))
    ∧ (eventC2.extra_context = none
        ↔ mergedC2.filter
            (fun kv => !(RESERVED_CONTEXT_KEYS.contains kv.1)) = []) :=
  serialize_partition envV8 (.strVal "x") "error" scopeC2 [] none
    none none none mergedC2 eventC2 rfl rfl

/-- C3 counterexample: under a V8-like runtime, serializing the plain string
error `"x"` yields an event whose `stack_trace` is the stack synthesized
from a fresh `Error` — a defined string, not `undefined` as the claim
states (the fallthrough in `extractStackTrace` calls `new Error()` for
non-Error inputs). -/
theorem serialize_string_stack_counterexample :
    (serialize envV8 (.strVal "x") "error" Scope.empty [] none
        none none none).map (fun ev => (ev.message, ev.stack_trace))
      = .ok ("x", some "Error\n    at test") := by
  rfl

/-- C3 as amended: serializing a nonempty plain string `str` yields an event
whose message is `str` and whose `stack_trace` is the runtime's fresh-error
stack (a defined string under V8, not `undefined`); the empty string instead
yields the message `Unknown error` and an `undefined` stack trace. -/
theorem serialize_string_input (env : SerializeEnv) (s' : Scope)
    (bc : List Breadcrumb) (e sn r : Option String) (str : String)
    (hs : str ≠ "") :
    (serialize env (.strVal str) "error" s' bc none e sn r).map
        (fun ev => (ev.message, ev.stack_trace))
      = .ok (str, env.freshStack)
    ∧ (serialize env (.strVal "") "error" s' bc none e sn r).map
        (fun ev => (ev.message, ev.stack_trace))
      = .ok ("Unknown error", none) := by
  constructor
  · obtain ⟨merged, hm⟩ : ∃ X, s'.merge none = .ok X := ⟨_, rfl⟩
    unfold serialize
    rw [hm]
    simp only [Except.map]
    have hmsg : extractMessage (.strVal str) = str := by
      simp [extractMessage, ErrInput.truthy, hs]
    have hstk : extractStackTrace env.freshStack (.strVal str)
        = env.freshStack := by
      simp [extractStackTrace, ErrInput.truthy, hs]
    simp [hmsg, hstk]
  · obtain ⟨merged, hm⟩ : ∃ X, s'.merge none = .ok X := ⟨_, rfl⟩
    unfold serialize
    rw [hm]
    simp only [Except.map]
    simp [extractMessage, extractStackTrace, ErrInput.truthy]

/-- Witness for the amended C3 at the string `"boom"` and a V8 runtime. -/
theorem serialize_string_input_witness :
    (serialize envV8 (.strVal "boom") "error" Scope.empty [] none
        none none none).map (fun ev => (ev.message, ev.stack_trace))
      = .ok ("boom", envV8.freshStack)
    ∧ (serialize envV8 (.strVal "") "error" Scope.empty [] none
        none none none).map (fun ev => (ev.message, ev.stack_trace))
      = .ok ("Unknown error", none) :=
  serialize_string_input envV8 Scope.empty [] none none none "boom"
    (by decide)

/-- A `captureError` call arriving while the flag is set is rejected by the
recursion guard: it returns `null`, performs no observable step, and leaves
the flag set. -/
theorem captureError_capturing_eq (fuel : Nat) (c : Client)
    (rt : CaptureRuntime) (e : ErrInput) (lc : Option Obj) :
    captureError fuel c rt e lc true = (true, [], none) := by
  unfold captureError
  by_cases h : c.enabled = false <;> simp [h]

/-- C1: while a capture is in flight (flag set), a nested `captureError`
issued synchronously from the `beforeSend` hook is rejected by the recursion
guard — it returns `null` with an empty trace, so it serializes and
dispatches nothing — and the outer call invokes the hook exactly once. -/
theorem captureError_nested_rejected (fuel : Nat) (c : Client)
    (rt : CaptureRuntime) (error nerr : ErrInput) (lc : Option Obj)
    (f : ErrorEvent → Option ErrorEvent)
    (hE : c.enabled = true)
    (hHook : c.beforeSend = some (.nestedThenRet nerr f)
      ∨ c.beforeSend = some (.nestedThenThrow nerr))
    (hSer : (serialize rt.env error "error" c.scope c.breadcrumbs.getAll
        lc c.environment c.serverName c.release).isOk = true) :
    captureError fuel c rt nerr none true = (true, [], none)
    ∧ ((captureError (fuel + 1) c rt error lc false).2.1).count
        Action.hookInvoked = 1 := by
  refine ⟨captureError_capturing_eq fuel c rt nerr none, ?_⟩
  unfold captureError
  simp only [hE, Bool.true_eq_false, if_false, ite_false]
  cases hs : serialize rt.env error "error" c.scope c.breadcrumbs.getAll
      lc c.environment c.serverName c.release with
  | error msg => rw [hs] at hSer; simp [Except.isOk, Except.toBool] at hSer
  | ok event =>
      have hnest := captureError_capturing_eq fuel c rt nerr none
      rcases hHook with h | h <;> rw [h] <;>
        simp only [hnest] <;>
        cases hf : f event <;>
        simp [hf, List.count_cons, List.count_append]

/-- C4 counterexample client: enabled, no hook, empty scope. -/
def clientCX : Client :=
  { enabled := true, beforeSend := none, environment := none,
    serverName := none, release := none, scope := Scope.empty,
    breadcrumbs := BreadcrumbManager.new 100 }

/-- C4 counterexample runtime. -/
def rtCX : CaptureRuntime :=
  { env := envV8, http := .resp 202, genId := "evt_42" }

/-- C4 counterexample: with a local context carrying the disallowed reserved
key `frames`, `merge` does raise the reserved-key error, but `captureError`
does not surface it to the caller — its top-level `catch` absorbs the throw
into a `null` result (the trace shows the serializer was entered and nothing
was dispatched), contradicting the claim that the error crosses the SDK
boundary as a thrown error. -/
theorem captureError_reservedKey_counterexample :
    (Scope.merge Scope.empty (some [("frames", Val.vnull)])).isOk = false
    ∧ captureError 1 clientCX rtCX (.strVal "x")
        (some [("frames", Val.vnull)]) false
      = (false, [Action.serializeInvoked], none) := by
  exact ⟨rfl, rfl⟩

/-- C4 as amended: when `captureError` runs (tracking enabled, not already
capturing) with a local context containing a reserved key outside the merge
allow-list, the `ReservedKeyError` raised by `merge` is caught by
`captureError`'s top-level `catch` and absorbed into a `null` result — no
hook runs and nothing is dispatched. The error is surfaced synchronously
only from direct `setContext`/`merge` calls, not through `captureError`. -/
theorem captureError_reservedKey_absorbed (fuel : Nat) (c : Client)
    (rt : CaptureRuntime) (error : ErrInput) (lc : Obj) (kv : String × Val)
    (hE : c.enabled = true)
    (hmem : kv ∈ lc) (hbad : disallowedKey kv.1 = true) :
    (Scope.merge c.scope (some lc)).isOk = false
    ∧ captureError fuel c rt error (some lc) false
        = (false, [Action.serializeInvoked], none) := by
  have hfind : (lc.find? (fun kv => disallowedKey kv.1)).isSome :=
    List.find?_isSome.mpr ⟨kv, hmem, hbad⟩
  obtain ⟨kv', hkv'⟩ := Option.isSome_iff_exists.mp hfind
  have hmerge : Scope.merge c.scope (some lc)
      = .error ("Cannot set reserved context key " ++ kv'.1
        ++ ". Use SDK methods to set this field.") := by
    unfold Scope.merge
    simp only [Option.getD_some, hkv']
  have hser : serialize rt.env error "error" c.scope c.breadcrumbs.getAll
      (some lc) c.environment c.serverName c.release
      = .error ("Cannot set reserved context key " ++ kv'.1
        ++ ". Use SDK methods to set this field.") := by
    unfold serialize
    rw [hmerge]
  constructor
  · rw [hmerge]
    rfl
  · unfold captureError
    simp only [hE, Bool.true_eq_false, if_false, ite_false, hser]
    simp

/-- C7: the recursion guard is always released — after any `captureError`
call started from the idle state completes, the capturing flag is `false`
again (every exit path runs the `finally`), so a subsequent independent
`captureError` on the same client is never rejected by the guard: when the
client is enabled it proceeds into serialization. -/
theorem captureError_guard_released (fuel fuel' : Nat) (c : Client)
    (rt rt' : CaptureRuntime) (e e' : ErrInput) (lc lc' : Option Obj) :
    (captureError fuel c rt e lc false).1 = false
    ∧ (c.enabled = true →
        Action.serializeInvoked ∈
          (captureError fuel' c rt' e' lc'
            (captureError fuel c rt e lc false).1).2.1) := by
  have h1 : (captureError fuel c rt e lc false).1 = false := by
    unfold captureError
    by_cases h : c.enabled = false <;> simp [h]
  refine ⟨h1, fun hE => ?_⟩
  rw [h1]
  unfold captureError
  simp only [hE, Bool.true_eq_false, if_false, ite_false]
  exact List.mem_cons_self _ _

/-- C1 witness client: enabled, with a `beforeSend` hook that re-enters
`captureError` and then returns the event unchanged. -/
def clientC1 : Client :=
  { enabled := true,
    beforeSend := some (.nestedThenRet (.strVal "n") (fun e => some e)),
    environment := none, serverName := none, release := none,
    scope := Scope.empty, breadcrumbs := BreadcrumbManager.new 100 }

/-- Witness for C1 at a concrete re-entrant client. -/
theorem captureError_nested_rejected_witness :
    captureError 1 clientC1 rtCX (.strVal "n") none true = (true, [], none)
    ∧ ((captureError 2 clientC1 rtCX (.strVal "boom") none false).2.1).count
        Action.hookInvoked = 1 :=
  captureError_nested_rejected 1 clientC1 rtCX (.strVal "boom")
    (.strVal "n") none (fun e => some e) rfl (Or.inl rfl) (by rfl)

/-- Witness for the amended C4 at a concrete disallowed local context. -/
theorem captureError_reservedKey_absorbed_witness :
    (Scope.merge clientCX.scope (some [("frames", Val.vnull)])).isOk = false
    ∧ captureError 1 clientCX rtCX (.strVal "x")
        (some [("frames", Val.vnull)]) false
      = (false, [Action.serializeInvoked], none) :=
  captureError_reservedKey_absorbed 1 clientCX rtCX (.strVal "x")
    [("frames", Val.vnull)] ("frames", Val.vnull) rfl
    (List.mem_cons_self _ _) rfl

/-- Witness for C7 at a concrete client and two successive calls. -/
theorem captureError_guard_released_witness :
    (captureError 1 clientCX rtCX (.strVal "x") none false).1 = false
    ∧ Action.serializeInvoked ∈
        (captureError 1 clientCX rtCX (.strVal "y") none
          (captureError 1 clientCX rtCX (.strVal "x") none false).1).2.1 :=
  ⟨(captureError_guard_released 1 1 clientCX rtCX rtCX
      (.strVal "x") (.strVal "y") none none).1,
   (captureError_guard_released 1 1 clientCX rtCX rtCX
      (.strVal "x") (.strVal "y") none none).2 rfl⟩

end Keplog
